import Mathlib

/-!
Verification of the `Embedding` module (`src/embedding.py`) of the
`embedding-inference` repository: a usage tracker (`TokenUsage` snapshots with
an ordered `historical_list`) layered over delegated tokenization and cosine
similarity.  Python integers are modelled as `Int`, lists as `List`,
exceptions as `Except String`.  The external tokenizer backend and the
cosine-distance routine are abstract parameters.
-/

namespace EmbeddingInference

/-- Snapshot record of token-usage counters.
Modelled from the spec: the `TokenUsage` pydantic model lives in
`embedding/data_models.py`, which is not part of the sources; the spec gives
its fields `requestTokens`, `responseTokens`, `promptTokens`, `totalTokens`,
all integers defaulting to zero in a fresh snapshot. -/
structure TokenUsage where
  request_tokens : Int
  response_tokens : Int
  prompt_tokens : Int
  total_tokens : Int
deriving DecidableEq, Repr

/-- Modelled from the spec: a fresh `TokenUsage()` has every counter zero. -/
def TokenUsage.init : TokenUsage :=
  { request_tokens := 0, response_tokens := 0, prompt_tokens := 0, total_tokens := 0 }

/-- Request record `EmbeddingRequest`: carries the text to tokenize (`embedding_request.text`). -/
structure EmbeddingRequest where
  text : String

/-- State of the `Embedding` class: the current `token_usage` snapshot, the
`historical_list` of snapshots, and the tokenizer configured at construction
(`embedding_function`). -/
structure Embedding where
  token_usage : TokenUsage
  historical_list : List TokenUsage
  embedding_function : String → List Nat

/-- Constructor `Embedding.__init__`: fresh counters, empty history, and the tokenizer for
the `"cl100k_base"` encoding obtained from the backend `tokenize` (which maps
an encoding name and a text to a token-id sequence). -/
def Embedding.mk0 (tokenize : String → String → List Nat) : Embedding :=
  { token_usage := TokenUsage.init
    historical_list := []
    embedding_function := tokenize "cl100k_base" }

/-- The Python expression `x or 0` on an `int`: `0` stays `0`, anything else stays itself
(so on integers it is the identity). -/
def orZero (x : Int) : Int :=
  if x = 0 then 0 else x

/-- Python list indexing `xs[i]`: a non-negative `i` must satisfy `i < len`,
a negative `i` addresses `len + i` and must satisfy `-len ≤ i`; anything else
raises `IndexError`.  Returns the effective non-negative position. -/
def pyIndex (len : Nat) (i : Int) : Option Nat :=
  if 0 ≤ i then
    if i < (len : Int) then some i.toNat else none
  else
    if -(len : Int) ≤ i then some (i + (len : Int)).toNat else none

/-- Method `Embedding.remove(index)`: evaluates `self.historical_list[index]` (raising
`IndexError` when out of range), then `self.historical_list.remove(...)`, which
deletes the first element of the list equal to it; when the literal `index`
equals `0` it additionally zeroes every counter of `token_usage` and appends a
fresh zeroed snapshot.  Returns `token_usage`. -/
def Embedding.remove (e : Embedding) (index : Int) : Except String (TokenUsage × Embedding) :=
  match pyIndex e.historical_list.length index with
  | none => .error "IndexError: list index out of range"
  | some k =>
    match e.historical_list[k]? with
    | none => .error "IndexError: list index out of range"
    | some v =>
      let hist := e.historical_list.erase v
      if index = 0 then
        let tu := TokenUsage.init
        .ok (tu, { e with token_usage := tu, historical_list := hist ++ [tu] })
      else
        .ok (e.token_usage, { e with historical_list := hist })

/-- Method `Embedding.update(request, response)`: coerces falsy arguments to `0`,
sets `request_tokens`/`response_tokens`, recomputes
`prompt_tokens = request_tokens + response_tokens`, adds it to `total_tokens`,
appends a copy of the snapshot to `historical_list`, returns the snapshot. -/
def Embedding.update (e : Embedding) (request response : Int) : TokenUsage × Embedding :=
  let rt := orZero request
  let rsp := orZero response
  let pt := rt + rsp
  let tu : TokenUsage :=
    { request_tokens := rt, response_tokens := rsp, prompt_tokens := pt
      total_tokens := e.token_usage.total_tokens + pt }
  (tu, { e with token_usage := tu, historical_list := e.historical_list ++ [tu] })

/-- Method `Embedding.count_tokens(string, encoding_name)`: fetches the named encoding
from the backend, encodes the string and returns the token count.  The
`Embedding` state is returned unchanged (the method never touches it). -/
def Embedding.count_tokens (tokenize : String → String → List Nat) (e : Embedding)
    (string : String) (encoding_name : String) : Nat × Embedding :=
  ((tokenize encoding_name string).length, e)

/-- Method `Embedding.cosine_similarity(embedding1, embedding2)`: returns
`1 - distance.cosine(u, v)` for the delegated cosine-distance routine
`cosDist`.  The delegated library rejects vectors of unequal length
(modelled from the spec: "fails with a dimension-mismatch error if the two
vectors have different lengths (delegated library behavior — must be
replicated)"). -/
def Embedding.cosine_similarity (cosDist : List ℚ → List ℚ → ℚ) (e : Embedding)
    (embedding1 embedding2 : List ℚ) : Except String (ℚ × Embedding) :=
  if embedding1.length = embedding2.length then
    .ok (1 - cosDist embedding1 embedding2, e)
  else
    .error "DimensionMismatch"

/-- Method `Embedding.process(embedding_request)`: encodes the request text with the
configured `embedding_function`, reports `(len(embedding), 0)` to the tracker
via `update`, and returns the token-id sequence. -/
def Embedding.process (e : Embedding) (embedding_request : EmbeddingRequest) :
    List Nat × Embedding :=
  let embedding := e.embedding_function embedding_request.text
  let (_, e1) := e.update (embedding.length : Int) 0
  (embedding, e1)

/-- Folds a sequence of `update` calls (pairs of request/response arguments)
over a tracker state. -/
def Embedding.runUpdates (e : Embedding) (ops : List (Int × Int)) : Embedding :=
  ops.foldl (fun s p => (s.update p.1 p.2).2) e

/-- The per-snapshot invariant of the spec:
`promptTokens == requestTokens + responseTokens`. -/
def TokenUsage.wf (tu : TokenUsage) : Prop :=
  tu.prompt_tokens = tu.request_tokens + tu.response_tokens

/-- The tracker invariant: the current snapshot and every stored snapshot
satisfy `TokenUsage.wf`. -/
def Embedding.wf (e : Embedding) : Prop :=
  e.token_usage.wf ∧ ∀ tu ∈ e.historical_list, tu.wf

/-- States reachable from a freshly constructed `Embedding` by any sequence of
the state-mutating operations (`update`, successful `remove`, `process`;
`count_tokens` and `cosine_similarity` never change the state). -/
inductive Reachable (tokenize : String → String → List Nat) : Embedding → Prop where
  | init : Reachable tokenize (Embedding.mk0 tokenize)
  | update (e : Embedding) (a b : Int) :
      Reachable tokenize e → Reachable tokenize (e.update a b).2
  | remove (e : Embedding) (i : Int) (tu : TokenUsage) (e' : Embedding) :
      Reachable tokenize e → e.remove i = .ok (tu, e') → Reachable tokenize e'
  | process (e : Embedding) (req : EmbeddingRequest) :
      Reachable tokenize e → Reachable tokenize (e.process req).2

/-- A trivial tokenizer backend used to instantiate concrete states. -/
def sampleTokenize : String → String → List Nat :=
  fun _ _ => []

/-- A concrete tracker state with two snapshots in its history. -/
def sampleState2 : Embedding :=
  (((Embedding.mk0 sampleTokenize).update 1 0).2.update 2 0).2

/-- A concrete tracker state whose history holds two equal (duplicate)
snapshots, produced by two `update 0 0` calls. -/
def sampleDup : Embedding :=
  (((Embedding.mk0 sampleTokenize).update 0 0).2.update 0 0).2

/-! ### Helper lemmas -/

theorem orZero_eq (x : Int) : orZero x = x := by
  unfold orZero; split <;> simp_all

theorem pyIndex_nat {len i : Nat} (hi : i < len) : pyIndex len (i : Int) = some i := by
  have h0 : (0 : Int) ≤ (i : Int) := Int.ofNat_nonneg i
  have h1 : (i : Int) < (len : Int) := by exact_mod_cast hi
  simp [pyIndex, h0, h1]

theorem pyIndex_none {len : Nat} {i : Int}
    (h : (len : Int) ≤ i ∨ i < -(len : Int)) : pyIndex len i = none := by
  unfold pyIndex
  rcases h with h | h
  · rw [if_pos (by omega), if_neg (by omega)]
  · rw [if_neg (by omega), if_neg (by omega)]

/-- Calling `remove 0` on a non-empty history: the head is erased (it is the first
element equal to itself), counters are zeroed, a zeroed snapshot appended. -/
theorem remove_zero (e : Embedding) (h : e.historical_list ≠ []) :
    e.remove 0 = .ok (TokenUsage.init,
      { e with token_usage := TokenUsage.init
               historical_list := e.historical_list.tail ++ [TokenUsage.init] }) := by
  obtain ⟨tu, hist, f⟩ := e
  cases hist with
  | nil => simp at h
  | cons a t =>
    simp only [Embedding.remove]
    have : pyIndex (a :: t).length 0 = some 0 := pyIndex_nat (by simp)
    rw [this]
    simp [List.erase_cons_head]

/-- Calling `remove i` at a valid non-zero natural index: succeeds, erasing the first
element of the history equal to the one at position `i`, with `token_usage`
untouched. -/
theorem remove_pos (e : Embedding) (i : Nat) (hi : i < e.historical_list.length)
    (h0 : i ≠ 0) :
    e.remove (i : Int) = .ok (e.token_usage,
      { e with historical_list := e.historical_list.erase (e.historical_list[i]) }) := by
  simp only [Embedding.remove]
  rw [pyIndex_nat hi]
  simp only [List.getElem?_eq_getElem hi]
  have : ((i : Int) = 0) = False := by
    simp only [eq_iff_iff, iff_false]
    exact_mod_cast h0
  simp [this]

/-! ### C1 — out-of-range behaviour of `remove` -/

/-- C1 counterexample: the claim says `remove` with any negative index fails,
but the Python lookup `self.historical_list[index]` accepts negative indices down to
`-len`.  On a tracker whose history has one entry, `remove (-1)` succeeds. -/
theorem remove_neg_one_succeeds :
    ((((Embedding.mk0 (fun _ _ => ([] : List Nat))).update 1 0).2.remove
      (-1)).toOption).isSome = true := rfl

/-- C1 (amended): `remove` fails with `IndexError` exactly when the index is
`≥ length` or `< -length` (a negative index in `[-length, -1]` is Python-style
valid); on that error no state is produced, so the tracker is unchanged. -/
theorem remove_out_of_range (e : Embedding) (index : Int)
    (h : (e.historical_list.length : Int) ≤ index
       ∨ index < -(e.historical_list.length : Int)) :
    e.remove index = .error "IndexError: list index out of range" := by
  simp only [Embedding.remove]
  rw [pyIndex_none h]

/-- C1 witness: `remove 3` on a fresh (empty-history) tracker fails. -/
theorem remove_out_of_range_witness :
    (Embedding.mk0 (fun _ _ => ([] : List Nat))).remove 3
      = .error "IndexError: list index out of range" :=
  remove_out_of_range _ 3 (by simp [Embedding.mk0])

/-! ### C2 — the reset path of `remove 0` -/

/-- C2: on any non-empty history, `remove 0` returns a state whose current
snapshot has all four counters zero, whose history is the old tail with a
fresh zeroed snapshot appended, and whose history is non-empty. -/
theorem remove_zero_resets (e : Embedding) (h : e.historical_list ≠ []) :
    ∃ e', e.remove 0 = .ok (e'.token_usage, e')
      ∧ e'.token_usage.total_tokens = 0
      ∧ e'.token_usage.prompt_tokens = 0
      ∧ e'.token_usage.request_tokens = 0
      ∧ e'.token_usage.response_tokens = 0
      ∧ e'.historical_list = e.historical_list.tail ++ [TokenUsage.init]
      ∧ e'.historical_list ≠ [] := by
  refine ⟨{ e with token_usage := TokenUsage.init, historical_list := e.historical_list.tail ++ [TokenUsage.init] }, remove_zero e h, rfl, rfl, rfl, rfl, rfl, by simp⟩

/-- C2 witness: instantiated on a tracker with one update in its history. -/
theorem remove_zero_resets_witness :
    ∃ e', (((Embedding.mk0 (fun _ _ => ([] : List Nat))).update 2 3).2).remove 0
        = .ok (e'.token_usage, e')
      ∧ e'.token_usage.total_tokens = 0
      ∧ e'.token_usage.prompt_tokens = 0
      ∧ e'.token_usage.request_tokens = 0
      ∧ e'.token_usage.response_tokens = 0
      ∧ e'.historical_list
        = (((Embedding.mk0 (fun _ _ => ([] : List Nat))).update 2 3).2).historical_list.tail
          ++ [TokenUsage.init]
      ∧ e'.historical_list ≠ [] :=
  remove_zero_resets _ (by simp [Embedding.mk0, Embedding.update])

/-! ### C3 — totals are sums of prompt tokens -/

theorem runUpdates_total (e : Embedding) (ops : List (Int × Int)) :
    (e.runUpdates ops).token_usage.total_tokens
      = e.token_usage.total_tokens + (ops.map (fun p => p.1 + p.2)).sum := by
  induction ops generalizing e with
  | nil => simp [Embedding.runUpdates]
  | cons p t ih =>
    simp only [Embedding.runUpdates, List.foldl_cons, List.map_cons, List.sum_cons] at ih ⊢
    rw [ih]
    simp [Embedding.update, orZero_eq]
    ring

theorem remove_zero_ok_state {e : Embedding} {tu : TokenUsage} {e' : Embedding}
    (h : e.remove 0 = .ok (tu, e')) : e'.token_usage = TokenUsage.init := by
  have hne : e.historical_list ≠ [] := by
    intro hnil
    rw [show e.remove 0 = .error "IndexError: list index out of range" from by
      simp only [Embedding.remove]
      rw [pyIndex_none (Or.inl (by simp [hnil]))]] at h
    exact Except.noConfusion h
  rw [remove_zero e hne] at h
  simp only [Except.ok.injEq, Prod.mk.injEq] at h
  rw [← h.2]

/-- C3: starting from a fresh tracker, `total_tokens` after a sequence of
`update` calls with non-negative arguments is the sum of the prompt-token
values those updates produced; and after any successful `remove 0` (a reset)
the sum restarts from the post-reset updates. -/
theorem total_is_sum_of_prompts (tokenize : String → String → List Nat)
    (ops ops2 : List (Int × Int))
    (hpos : ∀ p ∈ ops, 0 ≤ p.1 ∧ 0 ≤ p.2) (hpos2 : ∀ p ∈ ops2, 0 ≤ p.1 ∧ 0 ≤ p.2) :
    ((Embedding.mk0 tokenize).runUpdates ops).token_usage.total_tokens
      = (ops.map (fun p => p.1 + p.2)).sum
    ∧ ∀ (e : Embedding) (tu : TokenUsage) (e' : Embedding), e.remove 0 = .ok (tu, e') →
        (e'.runUpdates ops2).token_usage.total_tokens
          = (ops2.map (fun p => p.1 + p.2)).sum := by
  constructor
  · rw [runUpdates_total]
    simp [Embedding.mk0, TokenUsage.init]
  · intro e tu e' h
    rw [runUpdates_total, remove_zero_ok_state h]
    simp [TokenUsage.init]

/-- C3 witness: two concrete updates from a fresh tracker sum to `1+2+3+0`. -/
theorem total_is_sum_of_prompts_witness :
    ((Embedding.mk0 (fun _ _ => ([] : List Nat))).runUpdates
        [(1, 2), (3, 0)]).token_usage.total_tokens
      = ([(1, 2), (3, 0)].map (fun p => p.1 + p.2)).sum :=
  (total_is_sum_of_prompts (fun _ _ => []) [(1, 2), (3, 0)] [(2, 2)]
    (by decide) (by decide)).1

/-! ### C4 — the snapshot invariant -/

theorem wf_mk0 (tokenize : String → String → List Nat) : (Embedding.mk0 tokenize).wf := by
  refine ⟨rfl, ?_⟩
  intro tu htu
  simp [Embedding.mk0] at htu

theorem wf_update {e : Embedding} (h : e.wf) (a b : Int) : ((e.update a b).2).wf := by
  refine ⟨rfl, ?_⟩
  intro tu htu
  simp only [Embedding.update, List.mem_append, List.mem_singleton] at htu
  rcases htu with htu | rfl
  · exact h.2 tu htu
  · rfl

theorem wf_remove {e : Embedding} (h : e.wf) {i : Int} {tu : TokenUsage}
    {e' : Embedding} (hr : e.remove i = .ok (tu, e')) : e'.wf := by
  simp only [Embedding.remove] at hr
  cases hpy : pyIndex e.historical_list.length i with
  | none => rw [hpy] at hr; exact Except.noConfusion hr
  | some k =>
    simp only [hpy] at hr
    cases hg : e.historical_list[k]? with
    | none => simp only [hg] at hr; exact Except.noConfusion hr
    | some v =>
      simp only [hg] at hr
      by_cases hi : i = 0
      · rw [if_pos hi] at hr
        simp only [Except.ok.injEq, Prod.mk.injEq] at hr
        obtain ⟨-, rfl⟩ := hr
        refine ⟨rfl, ?_⟩
        intro tu htu
        simp only [List.mem_append, List.mem_singleton] at htu
        rcases htu with htu | rfl
        · exact h.2 _ (List.mem_of_mem_erase htu)
        · rfl
      · rw [if_neg hi] at hr
        simp only [Except.ok.injEq, Prod.mk.injEq] at hr
        obtain ⟨-, rfl⟩ := hr
        exact ⟨h.1, fun tu htu => h.2 _ (List.mem_of_mem_erase htu)⟩

theorem wf_process {e : Embedding} (h : e.wf) (req : EmbeddingRequest) :
    ((e.process req).2).wf :=
  wf_update h _ _

theorem wf_reachable {tokenize : String → String → List Nat} {e : Embedding}
    (h : Reachable tokenize e) : e.wf := by
  induction h with
  | init => exact wf_mk0 tokenize
  | update e a b _ ih => exact wf_update ih a b
  | remove e i tu e' _ hr ih => exact wf_remove ih hr
  | process e req _ ih => exact wf_process ih req

/-- C4: in every reachable tracker state, each snapshot stored in the history
satisfies `promptTokens = requestTokens + responseTokens`, and the snapshot
returned by `update a b` has `promptTokens = a + b`. -/
theorem snapshot_invariant (tokenize : String → String → List Nat) (e : Embedding)
    (h : Reachable tokenize e) (a b : Int) :
    (∀ tu ∈ e.historical_list,
        tu.prompt_tokens = tu.request_tokens + tu.response_tokens)
    ∧ (e.update a b).1.prompt_tokens = a + b := by
  refine ⟨(wf_reachable h).2, ?_⟩
  simp [Embedding.update, orZero_eq]

/-- C4 witness: `update 4 5` from the initial state yields prompt `4 + 5`. -/
theorem snapshot_invariant_witness :
    ((Embedding.mk0 (fun _ _ => ([] : List Nat))).update 4 5).1.prompt_tokens = 4 + 5 :=
  (snapshot_invariant (fun _ _ => []) _ Reachable.init 4 5).2

/-! ### C5 — history length discipline -/

/-- C5: on every tracker state, each `update` call grows the history by
exactly one; a successful `remove` at any valid non-zero index shrinks it by
exactly one; and `remove 0` — valid exactly when the history is non-empty —
removes one element and appends one, leaving the length unchanged. -/
theorem history_length_change (e : Embedding) (a b : Int) (i : Nat) :
    ((e.update a b).2).historical_list.length = e.historical_list.length + 1
    ∧ (i < e.historical_list.length → i ≠ 0 →
        ∃ e', e.remove (i : Int) = .ok (e.token_usage, e')
          ∧ e'.historical_list.length + 1 = e.historical_list.length)
    ∧ (e.historical_list ≠ [] →
        ∃ e', e.remove 0 = .ok (TokenUsage.init, e')
          ∧ e'.historical_list.length = e.historical_list.length) := by
  refine ⟨by simp [Embedding.update], ?_, ?_⟩
  · intro hi h0
    exact ⟨{ e with historical_list := e.historical_list.erase (e.historical_list[i]) },
      remove_pos e i hi h0,
      List.length_erase_add_one (List.getElem_mem hi)⟩
  · intro hne
    have hpos : 0 < e.historical_list.length := List.length_pos.mpr hne
    refine ⟨{ e with token_usage := TokenUsage.init, historical_list := e.historical_list.tail ++ [TokenUsage.init] }, remove_zero e hne, ?_⟩
    simp [List.length_tail]
    omega

/-- C5 witness: instantiated on a two-snapshot history at index `1`, with
every guard discharged concretely. -/
theorem history_length_change_witness :
    ((sampleState2.update 7 0).2).historical_list.length
        = sampleState2.historical_list.length + 1
    ∧ (∃ e', sampleState2.remove (1 : Int) = .ok (sampleState2.token_usage, e')
        ∧ e'.historical_list.length + 1 = sampleState2.historical_list.length)
    ∧ (∃ e', sampleState2.remove 0 = .ok (TokenUsage.init, e')
        ∧ e'.historical_list.length = sampleState2.historical_list.length) :=
  ⟨(history_length_change sampleState2 7 0 1).1,
   (history_length_change sampleState2 7 0 1).2.1 (by decide) (by decide),
   (history_length_change sampleState2 7 0 1).2.2 (by decide)⟩

/-! ### C6 — frame condition of non-zero removal -/

/-- C6: `remove` at a valid non-zero index returns the current snapshot and
leaves `token_usage` (hence `total_tokens` and all current counters) and the
configured tokenizer unchanged; the history just loses one element. -/
theorem remove_nonzero_frame (e : Embedding) (i : Nat)
    (hi : i < e.historical_list.length) (h0 : i ≠ 0) :
    ∃ e', e.remove (i : Int) = .ok (e.token_usage, e')
      ∧ e'.token_usage = e.token_usage
      ∧ e'.embedding_function = e.embedding_function
      ∧ e'.historical_list.length + 1 = e.historical_list.length :=
  ⟨{ e with historical_list := e.historical_list.erase (e.historical_list[i]) },
    remove_pos e i hi h0, rfl, rfl, List.length_erase_add_one (List.getElem_mem hi)⟩

/-- C6 witness: instantiated on a two-snapshot history at index `1`. -/
theorem remove_nonzero_frame_witness :
    ∃ e', sampleState2.remove (1 : Int) = .ok (sampleState2.token_usage, e')
      ∧ e'.token_usage = sampleState2.token_usage
      ∧ e'.embedding_function = sampleState2.embedding_function
      ∧ e'.historical_list.length + 1 = sampleState2.historical_list.length :=
  remove_nonzero_frame sampleState2 1 (by decide) (by decide)

/-! ### C7 — `process` (encode) -/

/-- C7: `process` tokenizes the request text with the configured encoding
(for a freshly constructed service that is the `"cl100k_base"` backend
encoding), reports request tokens equal to the length of the produced
sequence and response tokens `0` to the tracker via `update` — so
`total_tokens` grows by exactly that length and the new snapshot is appended
to the history — and returns the token-id sequence. -/
theorem process_reports_length (tokenize : String → String → List Nat)
    (e : Embedding) (req : EmbeddingRequest) :
    (Embedding.mk0 tokenize).embedding_function = tokenize "cl100k_base"
    ∧ (e.process req).1 = e.embedding_function req.text
    ∧ ((e.process req).2).token_usage.request_tokens = ((e.process req).1.length : Int)
    ∧ ((e.process req).2).token_usage.response_tokens = 0
    ∧ ((e.process req).2).token_usage.total_tokens
        = e.token_usage.total_tokens + ((e.process req).1.length : Int)
    ∧ ((e.process req).2).historical_list
        = e.historical_list ++ [((e.process req).2).token_usage] := by
  refine ⟨rfl, rfl, ?_, ?_, ?_, ?_⟩ <;>
    simp [Embedding.process, Embedding.update, orZero_eq]

/-! ### C8 — `count_tokens` is pure -/

/-- C8: `count_tokens` returns the token count of the string under the named
encoding and leaves the tracker state — current snapshot, totals and history —
entirely unchanged. -/
theorem count_tokens_pure (tokenize : String → String → List Nat) (e : Embedding)
    (string encoding_name : String) :
    (Embedding.count_tokens tokenize e string encoding_name).1
        = (tokenize encoding_name string).length
    ∧ (Embedding.count_tokens tokenize e string encoding_name).2 = e :=
  ⟨rfl, rfl⟩

/-! ### C9 — `cosine_similarity` -/

/-- C9: `cosine_similarity` returns `1 -` the delegated cosine distance when
the two vectors have equal length, leaving the state unchanged, and fails
with a dimension-mismatch error whenever the lengths differ (also without
touching the state). -/
theorem cosine_similarity_spec (cosDist : List ℚ → List ℚ → ℚ) (e : Embedding)
    (embedding1 embedding2 : List ℚ) :
    (embedding1.length = embedding2.length →
        Embedding.cosine_similarity cosDist e embedding1 embedding2
          = .ok (1 - cosDist embedding1 embedding2, e))
    ∧ (embedding1.length ≠ embedding2.length →
        Embedding.cosine_similarity cosDist e embedding1 embedding2
          = .error "DimensionMismatch") := by
  constructor
  · intro h; simp [Embedding.cosine_similarity, h]
  · intro h; simp [Embedding.cosine_similarity, h]

/-- C9 witness: vectors of lengths 2 and 3 fail with `DimensionMismatch`. -/
theorem cosine_similarity_spec_witness :
    Embedding.cosine_similarity (fun _ _ => 0) (Embedding.mk0 sampleTokenize)
        [1, 0] [1, 0, 0] = .error "DimensionMismatch" :=
  (cosine_similarity_spec (fun _ _ => 0) (Embedding.mk0 sampleTokenize)
      [1, 0] [1, 0, 0]).2 (by decide)

/-! ### C10 — removal targets the first duplicate -/

theorem getElem?_eraseIdx_of_ge {α : Type} {l : List α} {j k : Nat} (h : j ≤ k) :
    (l.eraseIdx j)[k]? = l[k + 1]? := by
  induction l generalizing j k with
  | nil => simp
  | cons x t ih =>
    cases j with
    | zero => simp
    | succ j =>
      cases k with
      | zero => omega
      | succ k =>
        rw [List.eraseIdx_cons_succ]
        simp only [List.getElem?_cons_succ]
        exact ih (by omega)

/-- Semantics of `list.remove(a)`: when the first occurrence of `a` in `l` sits
at position `j`, erasing `a` is erasing position `j`. -/
theorem erase_eq_eraseIdx_of_first {α : Type} [DecidableEq α] {l : List α} {a : α}
    {j : Nat} (hj : l[j]? = some a) (hfirst : ∀ k, k < j → l[k]? ≠ some a) :
    l.erase a = l.eraseIdx j := by
  induction l generalizing j with
  | nil => simp at hj
  | cons x t ih =>
    cases j with
    | zero =>
      simp only [List.getElem?_cons_zero, Option.some.injEq] at hj
      subst hj
      simp [List.erase_cons_head]
    | succ j =>
      have hx : x ≠ a := by
        intro h
        exact hfirst 0 (Nat.succ_pos j) (by simp [h])
      rw [List.erase_cons_tail (by simp [hx]), List.eraseIdx_cons_succ]
      rw [ih (by simpa using hj) (fun k hk => by simpa using hfirst (k + 1) (by omega))]

/-- C10: when the snapshot at a valid position `i` also occurs at an earlier
position `j` — the first position holding that value — `remove i` deletes the
element at position `j`, not the one at position `i`: the new history is the
old one with index `j` erased, and the old element at `i` is still present,
now at position `i - 1`. -/
theorem remove_deletes_first_duplicate (e : Embedding) (i j : Nat) (a : TokenUsage)
    (hij : j < i)
    (ha : e.historical_list[i]? = some a)
    (hdup : e.historical_list[j]? = some a)
    (hfirst : ∀ k, k < j → e.historical_list[k]? ≠ some a) :
    ∃ e', e.remove (i : Int) = .ok (e.token_usage, e')
      ∧ e'.historical_list = e.historical_list.eraseIdx j
      ∧ e'.historical_list[i - 1]? = some a := by
  obtain ⟨hi, hgi⟩ := List.getElem?_eq_some.mp ha
  have h0 : i ≠ 0 := by omega
  refine ⟨{ e with historical_list := e.historical_list.erase (e.historical_list[i]) },
    remove_pos e i hi h0, ?_, ?_⟩
  · rw [hgi]
    exact erase_eq_eraseIdx_of_first hdup hfirst
  · rw [hgi, erase_eq_eraseIdx_of_first hdup hfirst,
      getElem?_eraseIdx_of_ge (by omega : j ≤ i - 1),
      show i - 1 + 1 = i from by omega]
    exact ha

/-- C10 witness: a history holding two equal snapshots; removing index 1
erases index 0 and the snapshot is still present at position 0. -/
theorem remove_deletes_first_duplicate_witness :
    ∃ e', sampleDup.remove (1 : Int) = .ok (sampleDup.token_usage, e')
      ∧ e'.historical_list = sampleDup.historical_list.eraseIdx 0
      ∧ e'.historical_list[0]? = some TokenUsage.init :=
  remove_deletes_first_duplicate sampleDup 1 0 TokenUsage.init (by decide)
    (by decide) (by decide) (fun k hk => absurd hk (Nat.not_lt_zero k))

end EmbeddingInference
